import Mathlib

/-!
Verification of the LexonAI evidence-graph backend against its
natural-language specification.

The development shallowly embeds the TypeScript sources:
* `progressManager.ts` (the `ProgressManager` class) as explicit state
  passing over an association list keyed by job id;
* `config/density.ts` (`DENSITY_PRESETS`, `getDensityConfig`,
  `inferDensityLevel`);
* `expandSourceAgent.ts` (`validateConceptsResponse`, `truncateContent`,
  `buildExpandPrompt`);
* `routes/expandSourceRoute.ts` (`validateDensityLevel`,
  `handleExpandSource`) as a pure function of the request body and the
  collaborator outcome;
* the Semantic Edge Builder, whose implementation is not part of the
  sources and is therefore modelled from the specification text.

JavaScript numbers are modelled as `ℚ` (exact, executable); timestamps as
`ℤ`; strings as Lean `String`.
-/

/-- State stored per job, mirroring the `ProgressState` interface of
`progressManager.ts` (`progress`, `status`, `phase`, `createdAt`). -/
structure ProgressState where
  progress : ℚ
  status : String
  phase : String
  createdAt : ℤ
deriving DecidableEq, Repr

/-- The `jobs : Map<string, ProgressState>` field of `ProgressManager`,
modelled as an association list with JavaScript `Map` semantics. -/
def PM := List (String × ProgressState)

/-- `Map.get`: first entry with the given key, `null` when absent. -/
def mapGet : List (String × ProgressState) → String → Option ProgressState
  | [], _ => none
  | (k, v) :: rest, key => if k = key then some v else mapGet rest key

/-- `Map.set`: replace the entry with the given key, else append. -/
def mapSet : List (String × ProgressState) → String → ProgressState →
    List (String × ProgressState)
  | [], key, v => [(key, v)]
  | (k, v') :: rest, key, v =>
    if k = key then (k, v) :: rest else (k, v') :: mapSet rest key v

/-- `ProgressManager.createJob`: store a fresh state at progress 0,
phase `init`, status `Starting...`.  `now` stands for `Date.now()`. -/
def createJob (m : PM) (jobId : String) (now : ℤ) : PM :=
  mapSet m jobId ⟨0, "Starting...", "init", now⟩

/-- `ProgressManager.updateProgress`: no-op when the job is unknown;
otherwise clamp the requested progress to
`Math.max(job.progress, Math.min(100, progress))` and keep `createdAt`. -/
def updateProgress (m : PM) (jobId : String) (progress : ℚ)
    (status phase : String) : PM :=
  match mapGet m jobId with
  | none => m
  | some job =>
    mapSet m jobId ⟨max job.progress (min 100 progress), status, phase, job.createdAt⟩

/-- `ProgressManager.getProgress`: the stored state, or `null`. -/
def getProgress (m : PM) (jobId : String) : Option ProgressState :=
  mapGet m jobId

/-- `ProgressManager.completeJob`: no-op when the job is unknown;
otherwise force progress 100, status `Ready`, phase `complete`. -/
def completeJob (m : PM) (jobId : String) : PM :=
  match mapGet m jobId with
  | none => m
  | some job => mapSet m jobId ⟨100, "Ready", "complete", job.createdAt⟩

/-- `ProgressManager.removeJob`: delete the entry with the given key. -/
def removeJob : PM → String → PM
  | [], _ => []
  | (k, v) :: rest, jobId =>
    if k = jobId then rest else (k, v) :: removeJob rest jobId

/-- `CLEANUP_AFTER_MS = 5 * 60 * 1000` (milliseconds). -/
def CLEANUP_AFTER_MS : ℤ := 5 * 60 * 1000

/-- `CLEANUP_CHECK_INTERVAL_MS = 60 * 1000` (milliseconds). -/
def CLEANUP_CHECK_INTERVAL_MS : ℤ := 60 * 1000

/-- `ProgressManager.cleanupOldJobs`: one sweep tick at time `now`;
delete every job with `now - job.createdAt > CLEANUP_AFTER_MS`. -/
def cleanupOldJobs (m : PM) (now : ℤ) : PM :=
  m.filter (fun e => !(now - e.2.createdAt > CLEANUP_AFTER_MS : Bool))

/-- One `updateProgress` call's arguments, for reasoning about call
sequences against a `ProgressManager`. -/
structure UpdateCall where
  jobId : String
  progress : ℚ
  status : String
  phase : String

/-- Apply a sequence of `updateProgress` calls in order. -/
def applyUpdates : PM → List UpdateCall → PM
  | m, [] => m
  | m, u :: us => applyUpdates (updateProgress m u.jobId u.progress u.status u.phase) us

-- ===========================================================================
-- Density configuration (`config/density.ts`)
-- ===========================================================================

/-- `DensityLevel = 'low' | 'medium' | 'high'`. -/
inductive DensityLevel where
  | low
  | medium
  | high
deriving DecidableEq, Repr

/-- `directSourcesPerBlock` sub-record of `DensityConfig`. -/
structure DirectSourcesPerBlock where
  min : ℕ
  target : ℕ
  max : ℕ
deriving DecidableEq, Repr

/-- `secondarySources` sub-record of `DensityConfig`. -/
structure SecondarySourcesConfig where
  topSourcesToProcess : ℕ
  conceptsPerSource : ℕ
  maxTotalConcepts : ℕ
deriving DecidableEq, Repr

/-- `semanticEdges` sub-record of `DensityConfig`. -/
structure SemanticEdgesConfig where
  minSimilarity : ℚ
  topK : ℕ
  maxEdges : ℕ
deriving DecidableEq, Repr

/-- The `DensityConfig` interface of `config/density.ts`. -/
structure DensityConfig where
  exaNumResults : ℕ
  directSourcesPerBlock : DirectSourcesPerBlock
  secondarySources : SecondarySourcesConfig
  semanticEdges : SemanticEdgesConfig
deriving DecidableEq, Repr

/-- The `DENSITY_PRESETS` table, value for value. -/
def DENSITY_PRESETS : DensityLevel → DensityConfig
  | .low =>
    { exaNumResults := 6
      directSourcesPerBlock := { min := 1, target := 2, max := 4 }
      secondarySources :=
        { topSourcesToProcess := 3, conceptsPerSource := 2, maxTotalConcepts := 15 }
      semanticEdges := { minSimilarity := 0.65, topK := 4, maxEdges := 40 } }
  | .medium =>
    { exaNumResults := 10
      directSourcesPerBlock := { min := 1, target := 4, max := 6 }
      secondarySources :=
        { topSourcesToProcess := 5, conceptsPerSource := 3, maxTotalConcepts := 30 }
      semanticEdges := { minSimilarity := 0.60, topK := 6, maxEdges := 80 } }
  | .high =>
    { exaNumResults := 12
      directSourcesPerBlock := { min := 1, target := 5, max := 8 }
      secondarySources :=
        { topSourcesToProcess := 8, conceptsPerSource := 4, maxTotalConcepts := 40 }
      semanticEdges := { minSimilarity := 0.55, topK := 8, maxEdges := 120 } }

/-- `DEFAULT_DENSITY: DensityLevel = 'medium'`. -/
def DEFAULT_DENSITY : DensityLevel := .medium

/-- `getDensityConfig(level = DEFAULT_DENSITY)`: preset lookup. -/
def getDensityConfig (level : DensityLevel := DEFAULT_DENSITY) : DensityConfig :=
  DENSITY_PRESETS level

-- ===========================================================================
-- `inferDensityLevel` (`config/density.ts`)
-- ===========================================================================

/-- JavaScript regex `\s` (whitespace class), restricted to the common
ASCII whitespace characters used in questions. -/
def isJsWhitespace (c : Char) : Bool :=
  c = ' ' ∨ c = '\t' ∨ c = '\n' ∨ c = '\r' ∨ c = '\x0c' ∨ c = '\x0b'

/-- Number of maximal non-whitespace runs in a character list
(`inWord` records whether the previous character was part of a word). -/
def countWordRuns : List Char → Bool → ℕ
  | [], _ => 0
  | c :: cs, inWord =>
    if isJsWhitespace c then countWordRuns cs false
    else (if inWord then 0 else 1) + countWordRuns cs true

/-- `question.trim().split(/\s+/).length`: for an all-whitespace string
JavaScript yields `[""]` (length 1); otherwise the number of
whitespace-separated words. -/
def questionWordCount (question : String) : ℕ :=
  if question.toList.all isJsWhitespace then 1
  else countWordRuns question.toList false

/-- `(question.match(/\?/g) || []).length`. -/
def questionMarkCount (question : String) : ℕ :=
  (question.toList.filter (· = '?')).length

/-- JavaScript regex word character class `\w = [A-Za-z0-9_]`. -/
def isWordChar (c : Char) : Bool :=
  c.isAlpha ∨ c.isDigit ∨ c = '_'

/-- Case-insensitively match `w` against a prefix of the text, returning
the remaining text on success. -/
def matchLower : List Char → List Char → Option (List Char)
  | [], s => some s
  | _ :: _, [] => none
  | w :: ws, c :: cs => if c.toLower = w.toLower then matchLower ws cs else none

/-- Regex `\b` immediately after a match: end of string or a non-word
character. -/
def boundaryAfter : List Char → Bool
  | [] => true
  | c :: _ => !(isWordChar c)

/-- Regex `\b` immediately before a match: start of string or a non-word
character (`prev` is the character preceding the current position). -/
def boundaryBefore : Option Char → Bool
  | none => true
  | some p => !(isWordChar p)

/-- Whether `w` matches at the current position with `\b` on both sides. -/
def matchesAt (w : List Char) (prev : Option Char) (s : List Char) : Bool :=
  boundaryBefore prev &&
    (match matchLower w s with
     | some rest => boundaryAfter rest
     | none => false)

/-- Scan the text for a `\b`-delimited, case-insensitive occurrence of `w`. -/
def hasWordFrom (w : List Char) : Option Char → List Char → Bool
  | prev, [] => matchesAt w prev []
  | prev, c :: cs => matchesAt w prev (c :: cs) || hasWordFrom w (some c) cs

/-- `new RegExp("\\b(" + w + ")\\b", "i").test(s)` for a single
alternative `w`. -/
def testWordRegex (s w : String) : Bool :=
  hasWordFrom w.toList none s.toList

/-- Alternation `\b(w1|w2|...)\b` with the `i` flag. -/
def testWordAlternation (s : String) (ws : List String) : Bool :=
  ws.any (testWordRegex s)

/-- `/\b(and|or|also|additionally|furthermore|moreover)\b/i.test(question)`. -/
def hasMultiPartIndicators (question : String) : Bool :=
  testWordAlternation question
    ["and", "or", "also", "additionally", "furthermore", "moreover"]

/-- `/\b(list|enumerate|what are|types of|kinds of|examples of)\b/i.test(question)`. -/
def hasListIndicators (question : String) : Bool :=
  testWordAlternation question
    ["list", "enumerate", "what are", "types of", "kinds of", "examples of"]

/-- `inferDensityLevel(question, answerBlockCount?)`: the additive
scoring heuristic of `config/density.ts`, translated statement for
statement (`score` threaded through the successive `if` increments). -/
def inferDensityLevel (question : String) (answerBlockCount : Option ℕ := none) :
    DensityLevel :=
  let questionWords := questionWordCount question
  let questionMarks := questionMarkCount question
  let hasMultiPart := hasMultiPartIndicators question
  let hasList := hasListIndicators question
  let score0 : ℕ := 0
  let score1 := if questionWords > 20 then score0 + 2
    else if questionWords > 10 then score0 + 1 else score0
  let score2 := if questionMarks > 1 then score1 + 2 else score1
  let score3 := if hasMultiPart then score2 + 1 else score2
  let score4 := if hasList then score3 + 1 else score3
  let score :=
    match answerBlockCount with
    | none => score4
    | some n => if n ≥ 6 then score4 + 2 else if n ≥ 4 then score4 + 1 else score4
  if score ≥ 4 then .high
  else if score ≥ 2 then .medium
  else .low

/-- Length component of the score as the specification words it:
"+2 if the question exceeds 20 words, else +1 if it exceeds 10". -/
def specLengthScore (question : String) : ℕ :=
  if questionWordCount question > 20 then 2
  else if questionWordCount question > 10 then 1 else 0

/-- Question-mark component: "+2 if it contains more than one `?`". -/
def specMarkScore (question : String) : ℕ :=
  if questionMarkCount question > 1 then 2 else 0

/-- Conjunction component: "+1 for a multi-part conjunction indicator". -/
def specConjScore (question : String) : ℕ :=
  if hasMultiPartIndicators question then 1 else 0

/-- List component: "+1 for a list indicator". -/
def specListScore (question : String) : ℕ :=
  if hasListIndicators question then 1 else 0

/-- Block-count component: "when answerBlockCount is supplied, +2 if ≥6
else +1 if ≥4". -/
def specBlockScore (answerBlockCount : Option ℕ) : ℕ :=
  match answerBlockCount with
  | none => 0
  | some n => if n ≥ 6 then 2 else if n ≥ 4 then 1 else 0

/-- The additive score exactly as the specification describes it: the
sum of the five independent components. -/
def specDensityScore (question : String) (answerBlockCount : Option ℕ) : ℕ :=
  specLengthScore question + specMarkScore question + specConjScore question +
    specListScore question + specBlockScore answerBlockCount

/-- The level the specification assigns to a score:
`high` iff score ≥ 4, `medium` iff 2 ≤ score < 4, else `low`. -/
def specDensityLevel (question : String) (answerBlockCount : Option ℕ) :
    DensityLevel :=
  if specDensityScore question answerBlockCount ≥ 4 then .high
  else if specDensityScore question answerBlockCount ≥ 2 then .medium
  else .low

-- ===========================================================================
-- Expand-source agent (`expandSourceAgent.ts`)
-- ===========================================================================

/-- Untrusted JavaScript values as delivered by the collaborator
(`unknown` in the TypeScript source). -/
inductive JsValue where
  | str : String → JsValue
  | num : ℚ → JsValue
  | bool : Bool → JsValue
  | null : JsValue
  | arr : List JsValue → JsValue
  | obj : List (String × JsValue) → JsValue

/-- Property access on a JavaScript object literal: the value stored
under the key, `undefined` (`none`) when absent. -/
def getField : List (String × JsValue) → String → Option JsValue
  | [], _ => none
  | (k, v) :: rest, key => if k = key then some v else getField rest key

/-- The `ExpandedConcept` interface of `expandSourceAgent.ts`. -/
structure ExpandedConcept where
  title : String
  text : String
  short_label : String
  importance : Option ℚ
deriving DecidableEq, Repr

/-- One iteration of the validation loop in `validateConceptsResponse`
(lines 93-117): `none` exactly when the loop hits a `continue`.
A non-object or a missing/non-string `title` or `text` is skipped;
otherwise `short_label` falls back to `title` when not a string and
`importance` to `undefined` when not a number. -/
def validateConcept (v : JsValue) : Option ExpandedConcept :=
  match v with
  | .obj fields =>
    match getField fields "title", getField fields "text" with
    | some (.str title), some (.str text) =>
      let short_label :=
        match getField fields "short_label" with
        | some (.str s) => s
        | _ => title
      let importance :=
        match getField fields "importance" with
        | some (.num n) => some n
        | _ => none
      some ⟨title, text, short_label, importance⟩
    | _, _ => none
  | _ => none

/-- The `for` loop of `validateConceptsResponse`: each element is
validated on its own; `continue` skips it and the loop moves on. -/
def collectConcepts : List JsValue → List ExpandedConcept
  | [] => []
  | v :: rest =>
    match validateConcept v with
    | some c => c :: collectConcepts rest
    | none => collectConcepts rest

/-- `validateConceptsResponse(response)`: throws (`Except.error`) when
the response is not an object or its `concepts` field is not an array;
otherwise validates the elements one by one. -/
def validateConceptsResponse (response : JsValue) : Except String (List ExpandedConcept) :=
  match response with
  | .obj fields =>
    match getField fields "concepts" with
    | some (.arr items) => .ok (collectConcepts items)
    | _ => .error "Invalid response: concepts is not an array"
  | .arr _ => .error "Invalid response: concepts is not an array"
  | _ => .error "Invalid response: not an object"

/-- `String.prototype.lastIndexOf` for a single character: running scan
carrying the index of the latest hit (`-1` when none). -/
def lastIndexOfAux : List Char → Char → ℤ → ℤ → ℤ
  | [], _, _, best => best
  | c :: cs, target, i, best =>
    lastIndexOfAux cs target (i + 1) (if c = target then i else best)

/-- `s.lastIndexOf(c)`: the last position of `c` in `s`, `-1` if absent. -/
def lastIndexOf (s : String) (c : Char) : ℤ :=
  lastIndexOfAux s.toList c 0 (-1)

/-- `s.substring(0, n)` on the character-list model. -/
def substringTo (s : String) (n : ℕ) : String :=
  (s.toList.take n).asString

/-- `truncateContent(content, maxChars)` of `expandSourceAgent.ts`:
return short content unchanged; otherwise cut at `maxChars`, back up to
the last `.` when it lies past `maxChars * 0.7`, and append a marker. -/
def truncateContent (content : String) (maxChars : ℕ) : String :=
  if content.length ≤ maxChars then content
  else
    let truncated := substringTo content maxChars
    let lastPeriod := lastIndexOf truncated '.'
    if (lastPeriod : ℚ) > (maxChars : ℚ) * 0.7 then
      substringTo truncated (lastPeriod.toNat + 1) ++ " [...]"
    else
      truncated ++ "..."

/-- The `SourceInput` interface of `expandSourceAgent.ts`. -/
structure SourceInput where
  title : String
  url : String
  content : String
deriving DecidableEq, Repr

/-- `buildExpandPrompt(source, conceptCount)`: the template string of
`expandSourceAgent.ts`, with the source content truncated at 2000
characters. -/
def buildExpandPrompt (source : SourceInput) (conceptCount : ℕ) : String :=
  ("Source Title: " ++ source.title ++ "\nSource URL: " ++ source.url ++
      "\n\nContent:\n") ++
    truncateContent source.content 2000 ++
    ("\n\nExtract " ++ toString conceptCount ++
      " supporting concepts from this source that:\n" ++
      "- Reveal core ideas, terminology, or themes from the content\n" ++
      "- Are distinct and non-overlapping\n" ++
      "- Include an importance score between 0 and 1 (higher = more central to the source)\n" ++
      "\nReturn ONLY valid JSON matching this structure:\n" ++
      "\x7b\n  \"concepts\": [\n    \x7b\n      \"title\": \"Concept name (1-5 words)\",\n" ++
      "      \"text\": \"2-4 sentence explanation of this concept\",\n" ++
      "      \"short_label\": \"tag (1-3 words for visualization)\",\n" ++
      "      \"importance\": 0.85\n    \x7d\n  ]\n\x7d\n\n" ++
      "Provide exactly " ++ toString conceptCount ++
      " concepts. Keep text concise and focused.")

-- ===========================================================================
-- Expand-source route (`routes/expandSourceRoute.ts`)
-- ===========================================================================

/-- The request body as it reaches the handler: each field is an
arbitrary JavaScript value or absent (`Partial<ExpandSourceRequest>`). -/
structure ReqBody where
  title : Option JsValue
  url : Option JsValue
  content : Option JsValue
  densityLevel : Option JsValue

/-- JavaScript falsiness of a possibly-absent value (`!x`):
`undefined`, `null`, `""`, `0`, `NaN` and `false` are falsy. -/
def jsFalsy : Option JsValue → Bool
  | none => true
  | some .null => true
  | some (.str s) => s = ""
  | some (.num n) => n = 0
  | some (.bool b) => !b
  | some (.arr _) => false
  | some (.obj _) => false

/-- `typeof x === 'string'`. -/
def jsIsString : Option JsValue → Bool
  | some (.str _) => true
  | _ => false

/-- `validateDensityLevel(level)` of `expandSourceRoute.ts`: a string
among `low`/`medium`/`high` is cast to the level of that name, anything
else falls back to `DEFAULT_DENSITY`. -/
def validateDensityLevel (level : Option JsValue) : DensityLevel :=
  match level with
  | some (.str s) =>
    if s = "low" then .low
    else if s = "medium" then .medium
    else if s = "high" then .high
    else DEFAULT_DENSITY
  | _ => DEFAULT_DENSITY

/-- Outcome of the `expandSourceAgent` collaborator call: the extracted
concepts, or the thrown error's message. -/
inductive AgentOutcome where
  | ok : List ExpandedConcept → AgentOutcome
  | err : String → AgentOutcome

/-- The JSON body and status the route sends back, flattened: `error`,
`message`, `concepts` and `meta.*` are `none` when the corresponding
branch does not emit them. -/
structure RouteResponse where
  status : ℕ
  error : Option String
  message : Option String
  concepts : Option (List ExpandedConcept)
  metaLatencyMs : Option ℤ
  metaDensityLevel : Option DensityLevel
  metaSourceTitle : Option String
  metaSourceUrl : Option String
deriving DecidableEq, Repr

/-- `handleExpandSource(req, res)`, as a function of the request body,
the collaborator outcome and the measured latency: the checks run in
source order (`title`, `url`, `content` falsy-or-non-string checks, then
the `content.length === 0` check), and only a body passing all of them
reaches the collaborator; a thrown collaborator error becomes the 500
response of the `catch` block. -/
def handleExpandSource (body : ReqBody) (agent : AgentOutcome) (latencyMs : ℤ) :
    RouteResponse :=
  if jsFalsy body.title || !jsIsString body.title then
    { status := 400, error := some "Missing or invalid \"title\" field"
      message := some "Request must include a string \"title\" field"
      concepts := none, metaLatencyMs := none, metaDensityLevel := none
      metaSourceTitle := none, metaSourceUrl := none }
  else if jsFalsy body.url || !jsIsString body.url then
    { status := 400, error := some "Missing or invalid \"url\" field"
      message := some "Request must include a string \"url\" field"
      concepts := none, metaLatencyMs := none, metaDensityLevel := none
      metaSourceTitle := none, metaSourceUrl := none }
  else if jsFalsy body.content || !jsIsString body.content then
    { status := 400, error := some "Missing or invalid \"content\" field"
      message := some "Request must include a string \"content\" field with the source text"
      concepts := none, metaLatencyMs := none, metaDensityLevel := none
      metaSourceTitle := none, metaSourceUrl := none }
  else if (match body.content with
           | some (.str s) => s.length = 0
           | _ => false : Bool) then
    { status := 400, error := some "Empty content"
      message := some "The \"content\" field cannot be empty"
      concepts := none, metaLatencyMs := none, metaDensityLevel := none
      metaSourceTitle := none, metaSourceUrl := none }
  else
    match agent with
    | .ok concepts =>
      { status := 200, error := none, message := none
        concepts := some concepts
        metaLatencyMs := some latencyMs
        metaDensityLevel := some (validateDensityLevel body.densityLevel)
        metaSourceTitle :=
          (match body.title with | some (.str s) => some s | _ => none)
        metaSourceUrl :=
          (match body.url with | some (.str s) => some s | _ => none) }
    | .err msg =>
      { status := 500, error := some "Concept extraction failed"
        message := some msg
        concepts := none, metaLatencyMs := some latencyMs
        metaDensityLevel := none, metaSourceTitle := none, metaSourceUrl := none }

-- ===========================================================================
-- Semantic Edge Builder (modelled from the specification)
-- ===========================================================================

/-- Insert into a list sorted by the boolean comparison `le`. -/
def insertBy {α : Type} (le : α → α → Bool) (x : α) : List α → List α
  | [] => [x]
  | y :: ys => if le x y then x :: y :: ys else y :: insertBy le x ys

/-- Insertion sort by the boolean comparison `le` (a deterministic
stand-in for the builder's ranking steps). -/
def sortBy {α : Type} (le : α → α → Bool) : List α → List α
  | [] => []
  | x :: xs => insertBy le x (sortBy le xs)

/-- A `semantic_related` edge of the assembled graph: endpoints by node
id and a similarity weight. -/
structure SemanticEdge where
  source : String
  target : String
  weight : ℚ
deriving DecidableEq, Repr

/-- Canonicalize an ordered node pair to an unordered pair sorted by id. -/
def canonicalPair (p : String × String) : String × String :=
  if p.1 ≤ p.2 then p else (p.2, p.1)

/-- Upsert a canonical pair into the candidate list, keeping the higher
of the two similarity scores when both directions qualified. -/
def upsertMax : List ((String × String) × ℚ) → (String × String) → ℚ →
    List ((String × String) × ℚ)
  | [], k, w => [(k, w)]
  | (k', w') :: rest, k, w =>
    if k' = k then (k', max w' w) :: rest else (k', w') :: upsertMax rest k w

/-- Fold all candidate pairs into a deduplicated list keyed by the
canonical unordered pair. -/
def dedupPairs (acc : List ((String × String) × ℚ)) :
    List ((String × String) × ℚ) → List ((String × String) × ℚ)
  | [] => acc
  | (k, w) :: rest => dedupPairs (upsertMax acc k w) rest

/-- Modelled from the spec: per-node candidate pairs of the Semantic
Edge Builder (§4.4, steps 2-4a).  For each node `a`, its distinct
neighbors with similarity at least `minSimilarity` are ranked by
descending similarity and the `topK` best are kept; each surviving pair
is canonicalized to an unordered pair sorted by id, tagged with its
similarity. -/
def semanticCandidates (nodeIds : List String) (sim : String → String → ℚ)
    (se : SemanticEdgesConfig) : List ((String × String) × ℚ) :=
  nodeIds.flatMap (fun a =>
    ((sortBy (fun b c => sim a c ≤ sim a b)
        ((nodeIds.filter (fun b => b ≠ a)).filter
          (fun b => se.minSimilarity ≤ sim a b))).take se.topK).map
      (fun b => (canonicalPair (a, b), sim a b)))

/-- Modelled from the spec: the Semantic Edge Builder (§4.4), whose
implementation is absent from the sources; only the density docs and the
spec describe it.  The embedding/cosine collaborator is abstracted as a
similarity function `sim` over node ids, and `nodeIds` is the list of
nodes whose embedding call succeeded.  The candidate pairs are
deduplicated by canonical unordered pair (keeping the higher score),
truncated to `maxEdges` by descending similarity, and emitted as
`semantic_related` edges whose weight is the similarity. -/
def buildSemanticEdges (nodeIds : List String) (sim : String → String → ℚ)
    (cfg : DensityConfig) : List SemanticEdge :=
  ((sortBy (fun x y => y.2 ≤ x.2)
      (dedupPairs [] (semanticCandidates nodeIds sim cfg.semanticEdges))).take
    cfg.semanticEdges.maxEdges).map (fun e => ⟨e.1.1, e.1.2, e.2⟩)

-- ===========================================================================
-- Theorems
-- ===========================================================================

set_option maxRecDepth 100000

theorem mapGet_mapSet_self (m : List (String × ProgressState)) (k : String)
    (v : ProgressState) : mapGet (mapSet m k v) k = some v := by
  induction m with
  | nil => simp [mapSet, mapGet]
  | cons e rest ih =>
    obtain ⟨k', v'⟩ := e
    by_cases h : k' = k
    · simp [mapSet, mapGet, h]
    · simp [mapSet, mapGet, h, ih]

theorem mapGet_mapSet_ne (m : List (String × ProgressState)) (k k' : String)
    (v : ProgressState) (h : k ≠ k') : mapGet (mapSet m k v) k' = mapGet m k' := by
  induction m with
  | nil => simp [mapSet, mapGet, h]
  | cons e rest ih =>
    obtain ⟨k₀, v₀⟩ := e
    by_cases h0 : k₀ = k
    · subst h0
      simp [mapSet, mapGet, h]
    · simp [mapSet, mapGet, h0, ih]

theorem getProgress_update_self (m : PM) (id : String) (st : ProgressState)
    (p : ℚ) (status phase : String) (h : getProgress m id = some st) :
    getProgress (updateProgress m id p status phase) id =
      some ⟨max st.progress (min 100 p), status, phase, st.createdAt⟩ := by
  unfold getProgress at h ⊢
  unfold updateProgress
  rw [h]
  exact mapGet_mapSet_self ..

theorem getProgress_update_other (m : PM) (id jobId : String)
    (p : ℚ) (status phase : String) (h : jobId ≠ id) :
    getProgress (updateProgress m jobId p status phase) id = getProgress m id := by
  unfold getProgress updateProgress
  cases hm : mapGet m jobId with
  | none => rfl
  | some job => exact mapGet_mapSet_ne m jobId id _ h

theorem update_step (m : PM) (id : String) (st : ProgressState) (u : UpdateCall)
    (h : getProgress m id = some st) :
    ∃ st', getProgress (updateProgress m u.jobId u.progress u.status u.phase) id
        = some st' ∧
      st.progress ≤ st'.progress ∧ st'.progress ≤ max st.progress 100 := by
  by_cases hid : u.jobId = id
  · subst hid
    refine ⟨_, getProgress_update_self m u.jobId st u.progress u.status u.phase h, ?_, ?_⟩
    · exact le_max_left ..
    · exact max_le_max_left _ (min_le_left _ _)
  · exact ⟨st, by rw [getProgress_update_other m id u.jobId _ _ _ hid]; exact h,
      le_refl _, le_max_left ..⟩

theorem applyUpdates_progress (us : List UpdateCall) :
    ∀ (m : PM) (id : String) (st : ProgressState), getProgress m id = some st →
    ∃ st', getProgress (applyUpdates m us) id = some st' ∧
      st.progress ≤ st'.progress ∧ st'.progress ≤ max st.progress 100 := by
  induction us with
  | nil => exact fun m id st h => ⟨st, h, le_refl _, le_max_left ..⟩
  | cons u rest ih =>
    intro m id st h
    obtain ⟨st1, h1, hle1, hub1⟩ := update_step m id st u h
    obtain ⟨st', h', hle', hub'⟩ := ih _ id st1 h1
    refine ⟨st', h', le_trans hle1 hle', ?_⟩
    calc st'.progress ≤ max st1.progress 100 := hub'
      _ ≤ max (max st.progress 100) 100 := max_le_max hub1 le_rfl
      _ = max st.progress 100 := by rw [max_assoc, max_self]

theorem applyUpdates_append (us : List UpdateCall) (u : UpdateCall) :
    ∀ m : PM, applyUpdates m (us ++ [u]) =
      updateProgress (applyUpdates m us) u.jobId u.progress u.status u.phase := by
  induction us with
  | nil =>
    intro m
    simp only [List.nil_append]
    rfl
  | cons v rest ih =>
    intro m
    simp only [List.cons_append, applyUpdates]
    exact ih _

/-- C1: for a known job, `updateProgress` stores exactly
`max(currentProgress, min(100, requested))`; and after `createJob`
followed by any sequence of `updateProgress` calls, the stored progress
lies in `[0, 100]` and one further call never lowers it. -/
theorem progress_update_clamped_monotone :
    (∀ (m : PM) (id : String) (st : ProgressState) (p : ℚ) (status phase : String),
      getProgress m id = some st →
      getProgress (updateProgress m id p status phase) id =
        some ⟨max st.progress (min 100 p), status, phase, st.createdAt⟩)
    ∧ (∀ (m : PM) (id : String) (now : ℤ) (us : List UpdateCall) (u : UpdateCall),
        ∃ st st',
          getProgress (applyUpdates (createJob m id now) us) id = some st ∧
          getProgress (applyUpdates (createJob m id now) (us ++ [u])) id = some st' ∧
          0 ≤ st.progress ∧ st.progress ≤ 100 ∧ st.progress ≤ st'.progress) := by
  constructor
  · exact getProgress_update_self
  · intro m id now us u
    have h0 : getProgress (createJob m id now) id =
        some ⟨0, "Starting...", "init", now⟩ := mapGet_mapSet_self ..
    obtain ⟨st, hst, hle, hub⟩ := applyUpdates_progress us _ id _ h0
    obtain ⟨st', hst', hle', _⟩ := update_step _ id st u hst
    rw [← applyUpdates_append us u] at hst'
    refine ⟨st, st', hst, hst', hle, ?_, hle'⟩
    simpa using hub

/-- Witness for C1 at the spec's own example: progress 50, a later
request of 30 keeps the clamp value `max 50 (min 100 30)`. -/
theorem progress_update_clamped_monotone_witness :
    getProgress (updateProgress [("j1", ⟨50, "Answering", "answer", 0⟩)] "j1" 30 "x" "y")
        "j1" = some ⟨max 50 (min 100 30), "x", "y", 0⟩ :=
  progress_update_clamped_monotone.1 [("j1", ⟨50, "Answering", "answer", 0⟩)]
    "j1" ⟨50, "Answering", "answer", 0⟩ 30 "x" "y" rfl

/-- C6: `completeJob` on a known job forces progress 100, status
`Ready`, phase `complete`, whatever the prior state was. -/
theorem completeJob_forces_ready (m : PM) (id : String) (st : ProgressState)
    (h : getProgress m id = some st) :
    getProgress (completeJob m id) id = some ⟨100, "Ready", "complete", st.createdAt⟩ := by
  unfold getProgress at h ⊢
  unfold completeJob
  rw [h]
  exact mapGet_mapSet_self ..

/-- Witness for C6 on a job mid-way through the `answer` phase. -/
theorem completeJob_forces_ready_witness :
    getProgress (completeJob [("j1", ⟨37, "Answering", "answer", 5⟩)] "j1") "j1" =
      some ⟨100, "Ready", "complete", 5⟩ :=
  completeJob_forces_ready [("j1", ⟨37, "Answering", "answer", 5⟩)] "j1"
    ⟨37, "Answering", "answer", 5⟩ rfl

/-- C8: on an unknown job id, `updateProgress` and `completeJob` leave
the job map unchanged and `getProgress` reports not-found; in the
embedding every operation is total, so none of them can throw. -/
theorem unknown_job_safe_noop (m : PM) (id : String) (p : ℚ) (status phase : String)
    (h : getProgress m id = none) :
    updateProgress m id p status phase = m ∧ completeJob m id = m ∧
      getProgress m id = none := by
  refine ⟨?_, ?_, h⟩
  · unfold updateProgress
    rw [show mapGet m id = none from h]
  · unfold completeJob
    rw [show mapGet m id = none from h]

/-- Witness for C8: a one-job map probed at a different id. -/
theorem unknown_job_safe_noop_witness :
    updateProgress [("j1", ⟨0, "Starting...", "init", 0⟩)] "missing" 50 "s" "p" =
        [("j1", ⟨0, "Starting...", "init", 0⟩)] ∧
      completeJob [("j1", ⟨0, "Starting...", "init", 0⟩)] "missing" =
        [("j1", ⟨0, "Starting...", "init", 0⟩)] ∧
      getProgress [("j1", ⟨0, "Starting...", "init", 0⟩)] "missing" = none :=
  unknown_job_safe_noop [("j1", ⟨0, "Starting...", "init", 0⟩)] "missing" 50 "s" "p" rfl

/-- C2: the `low`, `medium` and `high` presets are exactly the
documented tables, and a missing or unrecognized density level always
resolves (totally, hence without failing) to the `medium` preset. -/
theorem density_presets_and_fallback :
    getDensityConfig .low = ⟨6, ⟨1, 2, 4⟩, ⟨3, 2, 15⟩, ⟨0.65, 4, 40⟩⟩
    ∧ getDensityConfig .medium = ⟨10, ⟨1, 4, 6⟩, ⟨5, 3, 30⟩, ⟨0.60, 6, 80⟩⟩
    ∧ getDensityConfig .high = ⟨12, ⟨1, 5, 8⟩, ⟨8, 4, 40⟩, ⟨0.55, 8, 120⟩⟩
    ∧ ∀ (v : Option JsValue),
        (∀ s, v = some (.str s) → s ≠ "low" ∧ s ≠ "medium" ∧ s ≠ "high") →
        getDensityConfig (validateDensityLevel v) = DENSITY_PRESETS .medium := by
  refine ⟨rfl, rfl, rfl, ?_⟩
  intro v hv
  match v with
  | none => rfl
  | some .null => rfl
  | some (.num _) => rfl
  | some (.bool _) => rfl
  | some (.arr _) => rfl
  | some (.obj _) => rfl
  | some (.str s) =>
    obtain ⟨h1, h2, h3⟩ := hv s rfl
    simp [validateDensityLevel, h1, h2, h3, DEFAULT_DENSITY, getDensityConfig]

/-- Witness for C2: an unrecognized string level and an absent level
both resolve to the `medium` preset. -/
theorem density_presets_and_fallback_witness :
    getDensityConfig (validateDensityLevel (some (.str "bogus"))) = DENSITY_PRESETS .medium
    ∧ getDensityConfig (validateDensityLevel none) = DENSITY_PRESETS .medium :=
  ⟨density_presets_and_fallback.2.2.2 (some (.str "bogus"))
      (fun s hs => by cases hs; exact ⟨by decide, by decide, by decide⟩),
    density_presets_and_fallback.2.2.2 none (fun s hs => by cases hs)⟩

theorem mapGet_eq_none_of_not_mem_keys (m : List (String × ProgressState))
    (k : String) (h : k ∉ m.map Prod.fst) : mapGet m k = none := by
  induction m with
  | nil => rfl
  | cons e rest ih =>
    obtain ⟨k', v⟩ := e
    simp only [List.map_cons, List.mem_cons] at h
    push_neg at h
    have hne : ¬k' = k := fun hk => h.1 hk.symm
    simp [mapGet, hne, ih h.2]

theorem mapGet_filter (p : String × ProgressState → Bool) (k : String) :
    ∀ m : List (String × ProgressState), (m.map Prod.fst).Nodup →
    mapGet (m.filter p) k =
      (mapGet m k).bind (fun v => if p (k, v) then some v else none) := by
  intro m
  induction m with
  | nil => intro _; rfl
  | cons e rest ih =>
    intro hnd
    obtain ⟨k', v⟩ := e
    simp only [List.map_cons, List.nodup_cons] at hnd
    by_cases hk : k' = k
    · subst hk
      by_cases hp : p (k', v)
      · simp [List.filter, hp, mapGet]
      · have hrest : mapGet rest k' = none :=
          mapGet_eq_none_of_not_mem_keys rest k' hnd.1
        have hfil : mapGet (rest.filter p) k' = none := by
          rw [ih hnd.2, hrest]; rfl
        simp [List.filter, hp, mapGet, hfil, hrest, Option.bind]
    · by_cases hp : p (k', v)
      · simp [List.filter, hp, mapGet, hk, ih hnd.2]
      · simp [List.filter, hp, mapGet, hk, ih hnd.2]

/-- C5 counterexample: a job created at time 0 and then touched by
`updateProgress` (the very last operation before the sweep, hence
touched strictly within any positive retention window) is nevertheless
deleted by a sweep at time `300001`, because `updateProgress` keeps the
original `createdAt`; the sweep is age-of-creation based, not
touch based. -/
theorem sweep_removes_recently_updated_job :
    getProgress (cleanupOldJobs
        (updateProgress (createJob [] "j" 0) "j" 10 "s" "p") 300001) "j" = none
    ∧ getProgress (updateProgress (createJob [] "j" 0) "j" 10 "s" "p") "j" ≠ none := by
  constructor
  · decide
  · decide

/-- C5 as the code implements it: after a sweep tick at `now`, a job is
still returned by `getProgress` exactly when it was present before and
its creation age `now - createdAt` is within the retention window;
updates do not extend retention. -/
theorem sweep_retains_by_creation_age (m : PM) (now : ℤ) (id : String)
    (st : ProgressState) (hkeys : (m.map Prod.fst).Nodup) :
    getProgress (cleanupOldJobs m now) id = some st ↔
      getProgress m id = some st ∧ now - st.createdAt ≤ CLEANUP_AFTER_MS := by
  unfold getProgress cleanupOldJobs
  rw [mapGet_filter _ id m hkeys]
  constructor
  · intro h
    rw [Option.bind_eq_some] at h
    obtain ⟨v, hv, hf⟩ := h
    by_cases hc : now - v.createdAt > CLEANUP_AFTER_MS
    · rw [if_neg (by simp [hc])] at hf
      cases hf
    · rw [if_pos (by simp; omega)] at hf
      cases hf
      exact ⟨hv, by omega⟩
  · rintro ⟨hv, hle⟩
    rw [Option.bind_eq_some]
    refine ⟨st, hv, ?_⟩
    rw [if_pos (by simp; omega)]

/-- Witness for C5: a job created at time 0 survives a sweep at time
100, inside the 300000 ms window. -/
theorem sweep_retains_by_creation_age_witness :
    getProgress (cleanupOldJobs [("j", ⟨0, "Starting...", "init", 0⟩)] 100) "j" =
        some ⟨0, "Starting...", "init", 0⟩ ↔
      getProgress [("j", ⟨0, "Starting...", "init", 0⟩)] "j" =
          some ⟨0, "Starting...", "init", 0⟩ ∧
        (100 : ℤ) - 0 ≤ CLEANUP_AFTER_MS :=
  sweep_retains_by_creation_age [("j", ⟨0, "Starting...", "init", 0⟩)] 100 "j"
    ⟨0, "Starting...", "init", 0⟩ (by decide)

/-- C3: `inferDensityLevel` computes exactly the additive score the
specification describes (the sum of the five independent components,
thresholded at 4 and 2), and any 25-word question with two `?` and a
list indicator, with `answerBlockCount = 6`, resolves to `high`. -/
theorem infer_density_additive_scoring :
    (∀ (q : String) (bc : Option ℕ), inferDensityLevel q bc = specDensityLevel q bc)
    ∧ (∀ q : String, questionWordCount q = 25 → questionMarkCount q = 2 →
        hasListIndicators q = true → inferDensityLevel q (some 6) = .high) := by
  constructor
  · intro q bc
    rcases bc with _ | n <;>
      by_cases h1 : questionWordCount q > 20 <;>
      by_cases h2 : questionWordCount q > 10 <;>
      by_cases h3 : questionMarkCount q > 1 <;>
      cases hb1 : hasMultiPartIndicators q <;>
      cases hb2 : hasListIndicators q <;>
      first
        | (exfalso; omega)
        | (by_cases h6 : n ≥ 6 <;> by_cases h4 : n ≥ 4 <;>
            first
              | (exfalso; omega)
              | simp [inferDensityLevel, specDensityLevel, specDensityScore,
                  specLengthScore, specMarkScore, specConjScore, specListScore,
                  specBlockScore, h1, h2, h3, hb1, hb2, h6, h4])
        | simp [inferDensityLevel, specDensityLevel, specDensityScore, specLengthScore,
            specMarkScore, specConjScore, specListScore, specBlockScore,
            h1, h2, h3, hb1, hb2]
  · intro q h1 h2 h3
    cases hm : hasMultiPartIndicators q <;>
      simp [inferDensityLevel, h1, h2, h3, hm]

/-- Witness for C3: a concrete 25-word question with two `?` and the
list indicator `What are`, at `answerBlockCount = 6`, lands on `high`. -/
theorem infer_density_additive_scoring_witness :
    questionWordCount "What are the main types of graphs used here today? And why do people choose to use them in practice so very often right now?" = 25
    ∧ questionMarkCount "What are the main types of graphs used here today? And why do people choose to use them in practice so very often right now?" = 2
    ∧ hasListIndicators "What are the main types of graphs used here today? And why do people choose to use them in practice so very often right now?" = true
    ∧ inferDensityLevel "What are the main types of graphs used here today? And why do people choose to use them in practice so very often right now?" (some 6) = .high :=
  ⟨by decide, by decide, by decide,
    infer_density_additive_scoring.2 _ (by decide) (by decide) (by decide)⟩

theorem collectConcepts_eq_filterMap (items : List JsValue) :
    collectConcepts items = items.filterMap validateConcept := by
  induction items with
  | nil => rfl
  | cons v rest ih =>
    cases hv : validateConcept v <;>
      simp [collectConcepts, hv, List.filterMap_cons, ih]

/-- C4 counterexample: a concept whose `title` and `text` are empty
strings is kept by `validateConceptsResponse` (the code checks only
`typeof`, not emptiness), so "kept iff non-empty title and text" fails. -/
theorem concept_validation_keeps_empty_strings :
    validateConceptsResponse
        (.obj [("concepts", .arr [.obj [("title", .str ""), ("text", .str "")]])])
      = .ok [⟨"", "", "", none⟩]
    ∧ ("" : String).length = 0 :=
  ⟨rfl, rfl⟩

/-- C4 as the code implements it: a batch whose `concepts` field is an
array is never aborted — the result is the element-wise `filterMap` of a
per-element validator; an element is kept iff it is an object whose
`title` and `text` fields are strings (possibly empty); for kept
elements `short_label` falls back to `title` when absent or non-string
and `importance` to `undefined` when not a number. -/
theorem concept_validation_per_element :
    (∀ (fields : List (String × JsValue)) (items : List JsValue),
      getField fields "concepts" = some (.arr items) →
      validateConceptsResponse (.obj fields) = .ok (items.filterMap validateConcept))
    ∧ (∀ v : JsValue, (validateConcept v).isSome ↔
        ∃ fs title text, v = .obj fs ∧ getField fs "title" = some (.str title) ∧
          getField fs "text" = some (.str text))
    ∧ (∀ (fs : List (String × JsValue)) (title text : String),
        getField fs "title" = some (.str title) →
        getField fs "text" = some (.str text) →
        ∃ c, validateConcept (.obj fs) = some c ∧ c.title = title ∧ c.text = text ∧
          (∀ s, getField fs "short_label" = some (.str s) → c.short_label = s) ∧
          ((∀ s, getField fs "short_label" ≠ some (.str s)) → c.short_label = title) ∧
          (∀ n, getField fs "importance" = some (.num n) → c.importance = some n) ∧
          ((∀ n, getField fs "importance" ≠ some (.num n)) → c.importance = none)) := by
  refine ⟨?_, ?_, ?_⟩
  · intro fields items h
    simp [validateConceptsResponse, h, collectConcepts_eq_filterMap]
  · intro v
    constructor
    · intro hsome
      cases v with
      | obj fs =>
        simp only [validateConcept] at hsome
        split at hsome
        · next title text heq1 heq2 => exact ⟨fs, title, text, rfl, heq1, heq2⟩
        · simp at hsome
      | str s => simp [validateConcept] at hsome
      | num n => simp [validateConcept] at hsome
      | bool b => simp [validateConcept] at hsome
      | null => simp [validateConcept] at hsome
      | arr l => simp [validateConcept] at hsome
    · rintro ⟨fs, title, text, rfl, ht, hx⟩
      simp [validateConcept, ht, hx]
  · intro fs title text ht hx
    refine ⟨⟨title, text,
      (match getField fs "short_label" with | some (.str s) => s | _ => title),
      (match getField fs "importance" with | some (.num n) => some n | _ => none)⟩,
      by simp [validateConcept, ht, hx], rfl, rfl, ?_, ?_, ?_, ?_⟩
    · intro s hs
      simp [hs]
    · intro hns
      cases hl : getField fs "short_label" with
      | none => simp [hl]
      | some lv => cases lv with
        | str s => exact absurd hl (hns s)
        | num n => simp [hl]
        | bool b => simp [hl]
        | null => simp [hl]
        | arr l => simp [hl]
        | obj o => simp [hl]
    · intro n hn
      simp [hn]
    · intro hnn
      cases hi : getField fs "importance" with
      | none => simp [hi]
      | some iv => cases iv with
        | num n => exact absurd hi (hnn n)
        | str s => simp [hi]
        | bool b => simp [hi]
        | null => simp [hi]
        | arr l => simp [hi]
        | obj o => simp [hi]

/-- Witness for C4: a batch with one invalid element (missing `text`)
and one valid element keeps exactly the valid one. -/
theorem concept_validation_per_element_witness :
    validateConceptsResponse
        (.obj [("concepts", .arr
          [.obj [("title", .str "A")],
           .obj [("title", .str "B"), ("text", .str "b"), ("importance", .num 1)]])])
      = .ok ([.obj [("title", .str "A")],
              .obj [("title", .str "B"), ("text", .str "b"), ("importance", .num 1)]
             ].filterMap validateConcept)
    ∧ [.obj [("title", .str "A")],
       .obj [("title", .str "B"), ("text", .str "b"), ("importance", .num 1)]
      ].filterMap validateConcept = [⟨"B", "b", "B", some 1⟩] :=
  ⟨concept_validation_per_element.1 _ _ rfl, rfl⟩

theorem string_length_zero_iff (s : String) : s.length = 0 ↔ s = "" := by
  constructor
  · intro h
    cases s with
    | mk data =>
      cases data with
      | nil => rfl
      | cons c cs => simp [String.length] at h
  · intro h
    subst h
    rfl

/-- C7 counterexample: a request with valid `title` and `url` but empty
`content` is answered 400 with the error `Missing or invalid "content"
field` — the dedicated `Empty content` branch is unreachable, because an
empty string is already falsy for the preceding check. -/
theorem empty_content_gets_missing_field_error :
    (handleExpandSource ⟨some (.str "T"), some (.str "http://u"), some (.str ""), none⟩
        (.ok []) 5).status = 400
    ∧ (handleExpandSource ⟨some (.str "T"), some (.str "http://u"), some (.str ""), none⟩
        (.ok []) 5).error = some "Missing or invalid \"content\" field"
    ∧ (handleExpandSource ⟨some (.str "T"), some (.str "http://u"), some (.str ""), none⟩
        (.ok []) 5).error ≠ some "Empty content"
    ∧ (handleExpandSource ⟨some (.str "T"), some (.str "http://u"), some (.str ""), none⟩
        (.ok []) 5).message ≠ some "The \"content\" field cannot be empty" :=
  ⟨rfl, rfl, by decide, by decide⟩

/-- C7 as the code implements it: an empty `content` always yields a 400
whose response does not depend on the collaborator (none is called), and
with valid `title`/`url` the 400 carries the `Missing or invalid
"content" field` error; with all fields valid and a failing extraction
collaborator, the response is a 500 with `error`, `message` and
`meta.latencyMs` populated. -/
theorem expand_route_error_paths :
    (∀ (title url dl : Option JsValue) (agent agent' : AgentOutcome) (lat lat' : ℤ),
      (handleExpandSource ⟨title, url, some (.str ""), dl⟩ agent lat).status = 400 ∧
      handleExpandSource ⟨title, url, some (.str ""), dl⟩ agent lat =
        handleExpandSource ⟨title, url, some (.str ""), dl⟩ agent' lat')
    ∧ (∀ (t u : String) (dl : Option JsValue) (agent : AgentOutcome) (lat : ℤ),
        t ≠ "" → u ≠ "" →
        handleExpandSource ⟨some (.str t), some (.str u), some (.str ""), dl⟩ agent lat =
          ⟨400, some "Missing or invalid \"content\" field",
            some "Request must include a string \"content\" field with the source text",
            none, none, none, none, none⟩)
    ∧ (∀ (t u c : String) (dl : Option JsValue) (msg : String) (lat : ℤ),
        t ≠ "" → u ≠ "" → c ≠ "" →
        handleExpandSource ⟨some (.str t), some (.str u), some (.str c), dl⟩
            (.err msg) lat =
          ⟨500, some "Concept extraction failed", some msg, none, some lat,
            none, none, none⟩) := by
  refine ⟨?_, ?_, ?_⟩
  · intro title url dl agent agent' lat lat'
    unfold handleExpandSource
    constructor
    · split_ifs <;> first | rfl | (exfalso; simp_all [jsFalsy])
    · split_ifs <;> first | rfl | (exfalso; simp_all [jsFalsy])
  · intro t u dl agent lat ht hu
    simp [handleExpandSource, jsFalsy, jsIsString, ht, hu]
  · intro t u c dl msg lat ht hu hc
    simp [handleExpandSource, jsFalsy, jsIsString, ht, hu, hc, string_length_zero_iff]

/-- Witness for C7: the empty-content 400 and the collaborator-failure
500 at concrete requests. -/
theorem expand_route_error_paths_witness :
    handleExpandSource ⟨some (.str "T"), some (.str "http://u"), some (.str ""), none⟩
        (.ok []) 7 =
      ⟨400, some "Missing or invalid \"content\" field",
        some "Request must include a string \"content\" field with the source text",
        none, none, none, none, none⟩
    ∧ handleExpandSource ⟨some (.str "T"), some (.str "http://u"), some (.str "body"),
          none⟩ (.err "EXA_API_KEY not configured") 42 =
      ⟨500, some "Concept extraction failed", some "EXA_API_KEY not configured",
        none, some 42, none, none, none⟩ :=
  ⟨expand_route_error_paths.2.1 "T" "http://u" none (.ok []) 7
      (by decide) (by decide),
    expand_route_error_paths.2.2 "T" "http://u" "body" none
      "EXA_API_KEY not configured" 42 (by decide) (by decide) (by decide)⟩

theorem lastIndexOfAux_lt (c : Char) : ∀ (l : List Char) (i best : ℤ), best < i →
    lastIndexOfAux l c i best < i + l.length := by
  intro l
  induction l with
  | nil =>
    intro i best h
    simpa [lastIndexOfAux] using h
  | cons d rest ih =>
    intro i best h
    have h' : (if d = c then i else best) < i + 1 := by split <;> omega
    have hrec := ih (i + 1) (if d = c then i else best) h'
    simp only [lastIndexOfAux, List.length_cons]
    push_cast at hrec ⊢
    omega

theorem lastIndexOf_lt (s : String) (c : Char) : lastIndexOf s c < (s.length : ℤ) := by
  have hb := lastIndexOfAux_lt c s.toList 0 (-1) (by omega)
  have hlen : (s.toList.length : ℤ) = (s.length : ℤ) := rfl
  unfold lastIndexOf
  omega

/-- C10: `truncateContent` returns short content unchanged; over-long
content becomes a prefix of at most `maxChars` characters followed by a
truncation marker (`" [...]"` or `"..."`); and the extraction prompt of
`buildExpandPrompt` embeds exactly `truncateContent content 2000`, so at
most the first 2000 characters of a source reach the prompt. -/
theorem truncate_content_bounds :
    (∀ (content : String) (maxChars : ℕ), content.length ≤ maxChars →
      truncateContent content maxChars = content)
    ∧ (∀ (content : String) (maxChars : ℕ), maxChars < content.length →
      ∃ (k : ℕ) (marker : String), k ≤ maxChars ∧ (marker = " [...]" ∨ marker = "...") ∧
        truncateContent content maxChars = (content.toList.take k).asString ++ marker)
    ∧ (∀ (src : SourceInput) (n : ℕ), ∃ pre post,
        buildExpandPrompt src n = pre ++ truncateContent src.content 2000 ++ post) := by
  refine ⟨?_, ?_, ?_⟩
  · intro content maxChars h
    unfold truncateContent
    rw [if_pos h]
  · intro content maxChars h
    unfold truncateContent
    rw [if_neg (by omega)]
    have h1 : content.toList.length = content.length := String.length_data content
    have htrlen : (substringTo content maxChars).length = maxChars := by
      rw [substringTo, List.length_asString, List.length_take]
      omega
    by_cases hq : ((lastIndexOf (substringTo content maxChars) '.' : ℚ) >
        (maxChars : ℚ) * 0.7)
    · rw [if_pos hq]
      have h0 : (0 : ℤ) ≤ lastIndexOf (substringTo content maxChars) '.' := by
        by_contra hneg
        push_neg at hneg
        have hc1 : ((lastIndexOf (substringTo content maxChars) '.' : ℤ) : ℚ) < 0 := by
          exact_mod_cast hneg
        have hc2 : (0 : ℚ) ≤ (maxChars : ℚ) * 0.7 := by positivity
        linarith
      have hlt : lastIndexOf (substringTo content maxChars) '.' < (maxChars : ℤ) := by
        have hb := lastIndexOf_lt (substringTo content maxChars) '.'
        rw [htrlen] at hb
        exact hb
      have hk : (lastIndexOf (substringTo content maxChars) '.').toNat + 1 ≤ maxChars := by
        omega
      refine ⟨(lastIndexOf (substringTo content maxChars) '.').toNat + 1, " [...]",
        hk, Or.inl rfl, ?_⟩
      congr 1
      show ((content.toList.take maxChars).take _).asString = _
      rw [List.take_take, Nat.min_eq_left hk]
    · rw [if_neg hq]
      exact ⟨maxChars, "...", le_refl _, Or.inr rfl, rfl⟩
  · intro src n
    exact ⟨_, _, rfl⟩

/-- Witness for C10: short content passes through unchanged, over-long
content is truncated with a marker, and the 2000-character bound holds
in a concrete prompt. -/
theorem truncate_content_bounds_witness :
    truncateContent "short" 10 = "short"
    ∧ (∃ (k : ℕ) (marker : String), k ≤ 4 ∧ (marker = " [...]" ∨ marker = "...") ∧
        truncateContent "overlong" 4 = (("overlong" : String).toList.take k).asString ++ marker)
    ∧ (∃ pre post, buildExpandPrompt ⟨"T", "http://u", "body"⟩ 2 =
        pre ++ truncateContent "body" 2000 ++ post) :=
  ⟨truncate_content_bounds.1 "short" 10 (by decide),
    truncate_content_bounds.2.1 "overlong" 4 (by decide),
    truncate_content_bounds.2.2 ⟨"T", "http://u", "body"⟩ 2⟩

theorem insertBy_perm {α : Type} (le : α → α → Bool) (x : α) (l : List α) :
    (insertBy le x l).Perm (x :: l) := by
  induction l with
  | nil => exact List.Perm.refl _
  | cons y ys ih =>
    unfold insertBy
    split
    · exact List.Perm.refl _
    · exact (ih.cons y).trans (List.Perm.swap x y ys)

theorem sortBy_perm {α : Type} (le : α → α → Bool) (l : List α) :
    (sortBy le l).Perm l := by
  induction l with
  | nil => exact List.Perm.refl _
  | cons x xs ih => exact (insertBy_perm le x (sortBy le xs)).trans (ih.cons x)

theorem mem_sortBy {α : Type} (le : α → α → Bool) (l : List α) (a : α) :
    a ∈ sortBy le l ↔ a ∈ l :=
  (sortBy_perm le l).mem_iff

theorem upsertMax_forall {Q : (String × String) × ℚ → Prop}
    (hmax : ∀ k w1 w2, Q (k, w1) → Q (k, w2) → Q (k, max w1 w2)) :
    ∀ (acc : List ((String × String) × ℚ)) (k : String × String) (w : ℚ),
      (∀ e ∈ acc, Q e) → Q (k, w) → ∀ e ∈ upsertMax acc k w, Q e := by
  intro acc
  induction acc with
  | nil =>
    intro k w _ hkw e he
    simp only [upsertMax, List.mem_singleton] at he
    subst he
    exact hkw
  | cons a rest ih =>
    intro k w hacc hkw e he
    obtain ⟨k', w'⟩ := a
    unfold upsertMax at he
    by_cases hk : k' = k
    · rw [if_pos hk] at he
      rcases List.mem_cons.mp he with h | h
      · subst h
        subst hk
        exact hmax k' w' w (hacc _ (List.mem_cons_self ..)) hkw
      · exact hacc e (List.mem_cons_of_mem _ h)
    · rw [if_neg hk] at he
      rcases List.mem_cons.mp he with h | h
      · subst h
        exact hacc _ (List.mem_cons_self ..)
      · exact ih k w (fun e he => hacc e (List.mem_cons_of_mem _ he)) hkw e h

theorem dedupPairs_forall {Q : (String × String) × ℚ → Prop}
    (hmax : ∀ k w1 w2, Q (k, w1) → Q (k, w2) → Q (k, max w1 w2)) :
    ∀ (input acc : List ((String × String) × ℚ)),
      (∀ e ∈ acc, Q e) → (∀ e ∈ input, Q e) → ∀ e ∈ dedupPairs acc input, Q e := by
  intro input
  induction input with
  | nil => intro acc hacc _ e he; exact hacc e he
  | cons a rest ih =>
    intro acc hacc hin e he
    obtain ⟨k, w⟩ := a
    unfold dedupPairs at he
    exact ih (upsertMax acc k w)
      (upsertMax_forall hmax acc k w hacc (hin _ (List.mem_cons_self ..)))
      (fun e he => hin e (List.mem_cons_of_mem _ he)) e he

theorem mem_keys_upsertMax :
    ∀ (acc : List ((String × String) × ℚ)) (k : String × String) (w : ℚ)
      (x : String × String),
      x ∈ (upsertMax acc k w).map Prod.fst ↔ x ∈ acc.map Prod.fst ∨ x = k := by
  intro acc
  induction acc with
  | nil => intro k w x; simp [upsertMax]
  | cons a rest ih =>
    intro k w x
    obtain ⟨k', w'⟩ := a
    by_cases hk : k' = k
    · unfold upsertMax
      rw [if_pos hk]
      simp only [List.map_cons, List.mem_cons]
      subst hk
      tauto
    · unfold upsertMax
      rw [if_neg hk]
      simp only [List.map_cons, List.mem_cons, ih]
      tauto

theorem nodup_keys_upsertMax :
    ∀ (acc : List ((String × String) × ℚ)) (k : String × String) (w : ℚ),
      (acc.map Prod.fst).Nodup → ((upsertMax acc k w).map Prod.fst).Nodup := by
  intro acc
  induction acc with
  | nil => intro k w _; simp [upsertMax]
  | cons a rest ih =>
    intro k w hnd
    obtain ⟨k', w'⟩ := a
    simp only [List.map_cons, List.nodup_cons] at hnd
    by_cases hk : k' = k
    · unfold upsertMax
      rw [if_pos hk]
      simp only [List.map_cons, List.nodup_cons]
      subst hk
      exact hnd
    · unfold upsertMax
      rw [if_neg hk]
      simp only [List.map_cons, List.nodup_cons]
      refine ⟨?_, ih k w hnd.2⟩
      intro hmem
      rcases (mem_keys_upsertMax rest k w k').mp hmem with h | h
      · exact hnd.1 h
      · exact hk h

theorem nodup_keys_dedupPairs :
    ∀ (input acc : List ((String × String) × ℚ)),
      (acc.map Prod.fst).Nodup → ((dedupPairs acc input).map Prod.fst).Nodup := by
  intro input
  induction input with
  | nil => intro acc h; exact h
  | cons a rest ih =>
    intro acc h
    obtain ⟨k, w⟩ := a
    exact ih _ (nodup_keys_upsertMax acc k w h)

theorem semanticCandidates_facts (nodeIds : List String) (sim : String → String → ℚ)
    (se : SemanticEdgesConfig) :
    ∀ e ∈ semanticCandidates nodeIds sim se, e.1.1 < e.1.2 ∧ se.minSimilarity ≤ e.2 := by
  intro e he
  rw [semanticCandidates, List.mem_flatMap] at he
  obtain ⟨a, _, hmem⟩ := he
  rw [List.mem_map] at hmem
  obtain ⟨b, hb, rfl⟩ := hmem
  have hb1 : b ∈ sortBy (fun b c => sim a c ≤ sim a b)
      ((nodeIds.filter (fun b => b ≠ a)).filter (fun b => se.minSimilarity ≤ sim a b)) :=
    List.mem_of_mem_take hb
  rw [mem_sortBy, List.mem_filter] at hb1
  have hsim : se.minSimilarity ≤ sim a b := by
    have := hb1.2
    exact of_decide_eq_true this
  have hne : b ≠ a := by
    have := (List.mem_filter.mp hb1.1).2
    exact of_decide_eq_true this
  constructor
  · unfold canonicalPair
    by_cases hle : a ≤ b
    · rw [if_pos hle]
      exact lt_of_le_of_ne hle (Ne.symm hne)
    · rw [if_neg hle]
      exact lt_of_not_le hle
  · exact hsim

/-- C9: every graph assembled with the modelled Semantic Edge Builder
carries at most `maxEdges` `semantic_related` edges, each with weight at
least the resolved density's `minSimilarity`, none a self-edge, and no
unordered node pair appears twice (neither as a duplicate nor with its
endpoints swapped). -/
theorem semantic_edges_bounded_dedup (nodeIds : List String) (sim : String → String → ℚ) (cfg : DensityConfig) :
    (buildSemanticEdges nodeIds sim cfg).length ≤ cfg.semanticEdges.maxEdges
    ∧ (∀ e ∈ buildSemanticEdges nodeIds sim cfg,
        cfg.semanticEdges.minSimilarity ≤ e.weight)
    ∧ (∀ e ∈ buildSemanticEdges nodeIds sim cfg, e.source ≠ e.target)
    ∧ (buildSemanticEdges nodeIds sim cfg).Pairwise (fun e1 e2 =>
        ¬(e1.source = e2.source ∧ e1.target = e2.target) ∧
        ¬(e1.source = e2.target ∧ e1.target = e2.source)) := by
  have hmax : ∀ (k : String × String) (w1 w2 : ℚ),
      (k.1 < k.2 ∧ cfg.semanticEdges.minSimilarity ≤ w1) →
      (k.1 < k.2 ∧ cfg.semanticEdges.minSimilarity ≤ w2) →
      (k.1 < k.2 ∧ cfg.semanticEdges.minSimilarity ≤ max w1 w2) := by
    intro k w1 w2 h1 _
    exact ⟨h1.1, le_trans h1.2 (le_max_left _ _)⟩
  have hded : ∀ e ∈ dedupPairs [] (semanticCandidates nodeIds sim cfg.semanticEdges),
      e.1.1 < e.1.2 ∧ cfg.semanticEdges.minSimilarity ≤ e.2 :=
    dedupPairs_forall hmax _ [] (by simp)
      (semanticCandidates_facts nodeIds sim cfg.semanticEdges)
  have hstr : ∀ e ∈ (sortBy (fun x y => y.2 ≤ x.2)
      (dedupPairs [] (semanticCandidates nodeIds sim cfg.semanticEdges))).take
        cfg.semanticEdges.maxEdges,
      e.1.1 < e.1.2 ∧ cfg.semanticEdges.minSimilarity ≤ e.2 := by
    intro e he
    exact hded e ((mem_sortBy _ _ e).mp (List.mem_of_mem_take he))
  have hnd : ((dedupPairs [] (semanticCandidates nodeIds sim cfg.semanticEdges)).map
      Prod.fst).Nodup :=
    nodup_keys_dedupPairs _ [] (by simp)
  have hnd2 : (((sortBy (fun x y => y.2 ≤ x.2)
      (dedupPairs [] (semanticCandidates nodeIds sim cfg.semanticEdges))).map
        Prod.fst)).Nodup := by
    have hp := (sortBy_perm (fun x y : (String × String) × ℚ => y.2 ≤ x.2)
      (dedupPairs [] (semanticCandidates nodeIds sim cfg.semanticEdges))).map
        (Prod.fst)
    exact hp.nodup_iff.mpr hnd
  have hnd3 : ((((sortBy (fun x y => y.2 ≤ x.2)
      (dedupPairs [] (semanticCandidates nodeIds sim cfg.semanticEdges))).take
        cfg.semanticEdges.maxEdges).map Prod.fst)).Nodup := by
    rw [List.map_take]
    exact hnd2.sublist (List.take_sublist _ _)
  refine ⟨?_, ?_, ?_, ?_⟩
  · rw [buildSemanticEdges, List.length_map]
    exact List.length_take_le _ _
  · intro e he
    rw [buildSemanticEdges, List.mem_map] at he
    obtain ⟨x, hx, rfl⟩ := he
    exact (hstr x hx).2
  · intro e he
    rw [buildSemanticEdges, List.mem_map] at he
    obtain ⟨x, hx, rfl⟩ := he
    exact ne_of_lt (hstr x hx).1
  · rw [buildSemanticEdges, List.pairwise_map]
    have hpw := List.pairwise_map.mp hnd3
    refine List.Pairwise.imp_of_mem ?_ hpw
    intro a b ha hb hne
    have hqa := hstr a ha
    have hqb := hstr b hb
    constructor
    · rintro ⟨h1, h2⟩
      exact hne (Prod.ext h1 h2)
    · rintro ⟨h1, h2⟩
      dsimp only at h1 h2
      have h3 := hqa.1
      have h4 := hqb.1
      rw [h1, h2] at h3
      exact lt_irrefl _ (h3.trans h4)

/-- Witness for C9 (no hypotheses to discharge): the edge-count bound at
a concrete node set, similarity function and configuration. -/
theorem semantic_edges_bounded_dedup_witness :
    (buildSemanticEdges ["a", "b", "c"] (fun _ _ => 1)
        ⟨0, ⟨0, 0, 0⟩, ⟨0, 0, 0⟩, ⟨1, 2, 3⟩⟩).length ≤
      (⟨0, ⟨0, 0, 0⟩, ⟨0, 0, 0⟩, ⟨1, 2, 3⟩⟩ : DensityConfig).semanticEdges.maxEdges :=
  (semantic_edges_bounded_dedup ["a", "b", "c"] (fun _ _ => 1)
    ⟨0, ⟨0, 0, 0⟩, ⟨0, 0, 0⟩, ⟨1, 2, 3⟩⟩).1
